import Mathlib

/-!
Verification of the gemi CLI (a Go terminal client for the Gemini API).

The development shallowly embeds the program's core: the interactive chat
session state machine (`chatModel`/`update` from cmd/chat.go), the streaming
Markdown accumulator (`markdownStreamWriter.Write` from cmd/generate.go), the
API-client wrapper state (`ClientState`, internal/gemini/client.go), the model
catalog grouping (the `/models` handler), the chat view (`chatModel.View`) and
the top-level exit-code path (main.go + the cobra `Run` handlers).

External collaborators (the Gemini network service, the Glamour Markdown
renderer, lipgloss/fatih-color styling, the bubbletea text-input widget) are
modelled as opaque parameters or canned outcomes, exactly at the boundary the
source calls them.
-/

namespace Gemi

/-! ### Data model: genai response values (internal/gemini/client.go) -/

/-- A part of a genai candidate's content: either a `genai.Text` or some other
part kind (the Go code type-switches on `genai.Text`). -/
inductive Part where
  | text (s : String)
  | other
deriving DecidableEq

/-- `genai.Content`: a list of parts. -/
structure Content where
  parts : List Part
deriving DecidableEq

/-- `genai.Candidate`: its `Content` pointer may be nil, modelled as `Option`. -/
structure Candidate where
  content : Option Content
deriving DecidableEq

/-- `genai.GenerateContentResponse`: a list of candidates. -/
structure GenerateContentResponse where
  candidates : List Candidate
deriving DecidableEq

/-- `responseToString` (internal/gemini/client.go, lines 114-127): concatenates
every `genai.Text` part of every candidate with non-nil content into one
accumulator string, in order. -/
def responseToString (resp : GenerateContentResponse) : String :=
  resp.candidates.foldl
    (fun result candidate =>
      match candidate.content with
      | some content =>
          content.parts.foldl
            (fun r p =>
              match p with
              | Part.text t => r ++ t
              | Part.other => r)
            result
      | none => result)
    ""

/-- The inline text-extraction loop in the chat message handler
(cmd/chat.go, regular-message branch of `chatModel.Update`): builds
`aiResponse` by ranging over `resp.Candidates`, skipping nil `Content`,
and `+=`-ing every `genai.Text` part. -/
def chatRespText (resp : GenerateContentResponse) : String :=
  resp.candidates.foldl
    (fun aiResponse candidate =>
      match candidate.content with
      | some content =>
          content.parts.foldl
            (fun r p =>
              match p with
              | Part.text t => r ++ t
              | Part.other => r)
            aiResponse
      | none => aiResponse)
    ""

/-! ### Stream accumulator (cmd/generate.go, `markdownStreamWriter.Write`) -/

/-- Result of one `markdownStreamWriter.Write` call: the new accumulated
buffer, the text printed to the terminal, the byte count returned, and the
returned error (always `none` in the source). -/
structure WriteResult where
  buffer : String
  printed : String
  n : Nat
  err : Option String
deriving DecidableEq

/-- The ANSI sequence `"\r\033[K"` the writer prints to clear the current
terminal line before repainting. -/
def clearLineSeq : String := "\r\x1b[K"

/-- `markdownStreamWriter.Write` (cmd/generate.go, lines 117-141): appends the
fragment to the accumulated buffer, renders the whole buffer through the
(opaque, external) Glamour renderer, prints the rendered text - or, when
rendering fails, the raw buffer - after clearing the line, and returns
`(len(p), nil)`. -/
def mswWrite (render : String → Except String String)
    (buffer : String) (p : String) : WriteResult :=
  let buf := buffer ++ p
  let printed :=
    clearLineSeq ++
      (match render buf with
       | Except.ok formatted => formatted
       | Except.error _ => buf)
  { buffer := buf, printed := printed, n := p.utf8ByteSize, err := none }

/-- Running the stream writer over a whole sequence of fragments, starting
from the empty buffer (a fresh `markdownStreamWriter{}`). -/
def writerRun (render : String → Except String String) (fs : List String) : String :=
  fs.foldl (fun b p => (mswWrite render b p).buffer) ""

/-! ### Helper lemmas about `String.append` -/

theorem str_foldl_append (fs : List String) :
    ∀ a : String, fs.foldl (fun x y => x ++ y) a = a ++ fs.foldl (fun x y => x ++ y) "" := by
  induction fs with
  | nil => intro a; simp
  | cons p fs ih =>
      intro a
      simp only [List.foldl_cons]
      rw [ih (a ++ p), ih ("" ++ p)]
      simp [String.append_assoc]

theorem string_join_cons (p : String) (fs : List String) :
    String.join (p :: fs) = p ++ String.join fs := by
  simp only [String.join, List.foldl_cons]
  rw [str_foldl_append fs ("" ++ p), str_foldl_append fs ""]
  simp [String.append_assoc]

/-! ### Model catalog grouping (cmd/chat.go `/models` handler, lines 131-174) -/

/-- A `genai.ModelInfo` descriptor as the code consumes it. -/
structure ModelInfo where
  name : String
  baseModelID : String
  version : String
deriving DecidableEq

/-- `strings.Split` on a single-character separator, on the character list of
the string (the separator `"/"` is one ASCII byte, so byte- and
character-level splitting agree). -/
def splitChars (sep : Char) : List Char → List (List Char)
  | [] => [[]]
  | c :: rest =>
      match splitChars sep rest with
      | [] => [[c]]
      | h :: t => if c = sep then [] :: h :: t else (c :: h) :: t

/-- `parts := strings.Split(model.Name, "/"); modelName := parts[len(parts)-1]`:
the last `/`-separated segment of a full model resource name. -/
def displayNameOf (s : String) : String :=
  ⟨(splitChars '/' s.data).getLastD []⟩

/-- `sort.Strings`: sorting a string slice ascending. Strings with equal
compare are identical, so any sorting algorithm yields the same list;
insertion sort is used as the model. -/
def sortStrings (l : List String) : List String := List.insertionSort (· ≤ ·) l

/-- The names accumulated in `modelsByBase[b]`: display names of the input
models whose `BaseModelID` is `b`, in input order. -/
def groupNames (models : List ModelInfo) (b : String) : List String :=
  (models.filter (fun m => m.baseModelID == b)).map (fun m => displayNameOf m.name)

/-- The grouped-and-sorted structure the `/models` handler iterates over:
base-model IDs (the keys of `modelsByBase`, i.e. the distinct `BaseModelID`s)
sorted ascending, each paired with its group's display names sorted ascending.
Go map iteration order is immaterial because the key slice is sorted before
use. -/
def groupModels (models : List ModelInfo) : List (String × List String) :=
  (sortStrings ((models.map (fun m => m.baseModelID)).dedup)).map
    (fun b => (b, sortStrings (groupNames models b)))

/-- The Markdown document the `/models` chat command builds from the grouped
catalog (cmd/chat.go, the `strings.Builder` in the `/models` closure). -/
def buildModelsMarkdown (current : String) (models : List ModelInfo) : String :=
  "# Available Models\n\n" ++
    ((groupModels models).foldl
      (fun sb g =>
        sb ++ "## " ++ g.1 ++ "\n\n" ++
          g.2.foldl (fun s n => s ++ "* **" ++ n ++ "**\n") "" ++ "\n")
      "") ++
    "**Current model:** " ++ current ++ "\n\n" ++
    "To change models, type: `/model MODEL_NAME`"

/-! ### API client state (internal/gemini/client.go)

The `*gemini.Client` is shared by pointer between the program and every
command closure.  Session identity is modelled by a counter: each
`StartChat` call hands out a fresh handle id.  The network outcomes the
client would obtain (`ListModels`, `ChatSession.SendMessage`) are external
collaborators and are modelled as canned outcomes carried in the state. -/

instance {ε α : Type} [DecidableEq ε] [DecidableEq α] : DecidableEq (Except ε α) := fun x y =>
  match x, y with
  | Except.ok a, Except.ok b =>
      if h : a = b then isTrue (by rw [h]) else isFalse (fun hh => h (by cases hh; rfl))
  | Except.error a, Except.error b =>
      if h : a = b then isTrue (by rw [h]) else isFalse (fun hh => h (by cases hh; rfl))
  | Except.ok _, Except.error _ => isFalse (fun hh => Except.noConfusion hh)
  | Except.error _, Except.ok _ => isFalse (fun hh => Except.noConfusion hh)

structure ClientState where
  model : String
  nextSid : Nat
  catalog : Except String (List ModelInfo)
  reply : Except String GenerateContentResponse
deriving DecidableEq

/-- `Client.SwitchModel` (client.go, lines 104-112): rejects the empty name
without mutating anything; otherwise replaces the active model handle. -/
def switchModel (c : ClientState) (name : String) : Except String ClientState :=
  if name = "" then Except.error "model name cannot be empty"
  else Except.ok { c with model := name }

/-- `Client.StartChat`: returns a fresh chat-session handle. -/
def startChat (c : ClientState) : Nat × ClientState :=
  (c.nextSid, { c with nextSid := c.nextSid + 1 })

/-! ### Chat session state machine (cmd/chat.go) -/

/-- One entry of the displayed conversation history (`message` in chat.go). -/
structure ChatMessage where
  content : String
  isUser : Bool
deriving DecidableEq

/-- `chatModel` (chat.go): the bubbletea model.  The text-input widget is
modelled by its current value; the `*gemini.Client` pointer target is the
separate shared `ClientState`. -/
structure ChatModel where
  messages : List ChatMessage
  input : String
  err : Option String
  width : Int
  height : Int
  currentModel : String
  chatSession : Nat
deriving DecidableEq

/-- The bubbletea messages `chatModel.Update` handles. -/
inductive Msg where
  | keyCtrlC
  | keyEnter
  | response (content : String)
  | errorMsg (e : String)
  | windowSize (w h : Int)
deriving DecidableEq

/-- A `tea.Cmd` as returned by `Update`: `tea.Quit`, an asynchronous task
(run against the shared client, producing a message), or an external
widget command (e.g. from `textinput.Update` - never a quit). -/
inductive Cmd where
  | quit
  | task (run : ClientState → ClientState × Msg)
  | external

/-- `strings.HasPrefix`, on character lists (ASCII arguments in the source,
so byte- and character-level agree). -/
def strHasPfx (s p : String) : Bool := p.data.isPrefixOf s.data

/-- `strings.TrimPrefix`. -/
def strTrimPfx (s p : String) : String :=
  if strHasPfx s p then ⟨s.data.drop p.data.length⟩ else s

/-- The `/model ` command closure.  On success the Go closure also assigns
the fresh session and the new model name to its captured copy of the chat
model; bubbletea discards that copy (value receiver), so only the shared
client mutation and the returned message survive - which this definition
reflects by dropping the fresh session id. -/
def modelSwitchTask (newModel : String) : ClientState → ClientState × Msg :=
  fun c =>
    match switchModel c newModel with
    | Except.error e => (c, Msg.errorMsg e)
    | Except.ok c1 =>
        let s := startChat c1
        (s.2, Msg.response ("Switched to model: " ++ newModel))

/-- The `/models` command closure: list the catalog, group, and format
(reads `m.currentModel` from the captured model copy). -/
def modelsTask (m : ChatModel) : ClientState → ClientState × Msg :=
  fun c =>
    match c.catalog with
    | Except.error e => (c, Msg.errorMsg e)
    | Except.ok models => (c, Msg.response (buildModelsMarkdown m.currentModel models))

/-- The `/help` command text (static, produced locally). -/
def helpText : String :=
  "# Available Commands\n\n" ++
    "* **`/models`** or **`/list-models`** - List available models\n" ++
    "* **`/model MODEL_NAME`** - Switch to a different model\n" ++
    "* **`/help`** - Show this help message\n" ++
    "* **`/quit`** or **`Ctrl+C`** - Exit the chat"

def helpTask : ClientState → ClientState × Msg :=
  fun c => (c, Msg.response helpText)

/-- The regular-message closure: `chatSession.SendMessage` (network outcome
canned in the client state), extracting the reply text with the inline loop. -/
def sendMessageTask (userInput : String) : ClientState → ClientState × Msg :=
  fun c =>
    let _ := userInput
    match c.reply with
    | Except.error e => (c, Msg.errorMsg e)
    | Except.ok resp => (c, Msg.response (chatRespText resp))

/-- Classification of a submitted non-empty line (the command chain in the
`tea.KeyEnter` branch), given the post-append model copy `m1` the closures
capture. -/
def dispatchLine (userInput : String) (m1 : ChatModel) : Cmd :=
  if strHasPfx userInput "/model " then
    Cmd.task (modelSwitchTask (strTrimPfx userInput "/model "))
  else if userInput = "/models" ∨ userInput = "/list-models" then
    Cmd.task (modelsTask m1)
  else if userInput = "/help" then
    Cmd.task helpTask
  else if userInput = "/quit" then
    Cmd.quit
  else
    Cmd.task (sendMessageTask userInput)

/-- `chatModel.Update` (chat.go, lines 96-230). -/
def update (m : ChatModel) (msg : Msg) : ChatModel × Option Cmd :=
  match msg with
  | Msg.keyCtrlC => (m, some Cmd.quit)
  | Msg.keyEnter =>
      if m.input = "" then (m, none)
      else
        let userInput := m.input
        let m1 : ChatModel :=
          { m with messages := m.messages ++ [⟨userInput, true⟩], input := "" }
        (m1, some (dispatchLine userInput m1))
  | Msg.response content =>
      ({ m with messages := m.messages ++ [⟨content, false⟩] }, some Cmd.external)
  | Msg.errorMsg e => ({ m with err := some e }, some Cmd.external)
  | Msg.windowSize w h => ({ m with width := w, height := h }, some Cmd.external)

/-- One full submit-and-settle exchange under the bubbletea runtime contract:
type `line`, press Enter (`Update` on `KeyEnter`), run the returned command
against the shared client, and feed the produced message back into `Update`
on the model the program stored.  Returns the final model, the final client
state, and whether the program quit. -/
def stepInput (m : ChatModel) (c : ClientState) (line : String) :
    ChatModel × ClientState × Bool :=
  let r := update { m with input := line } Msg.keyEnter
  match r.2 with
  | some (Cmd.task f) =>
      let rc := f c
      ((update r.1 rc.2).1, rc.1, false)
  | some Cmd.quit => (r.1, c, true)
  | some Cmd.external => (r.1, c, false)
  | none => (r.1, c, false)

/-! ### Chat view (`chatModel.View`, chat.go lines 232-284)

Styling calls (lipgloss, fatih/color, glamour, the text-input widget) are
external; they enter as the opaque fields of `Env`. -/

structure Env where
  styleTitle : String → String
  userLabel : String
  aiLabel : String
  renderMd : String → Except String String
  errMark : String
  hintStart : String
  hintHelp : String
  hintQuit : String
  inputView : String

/-- One iteration of the message loop in `View`: a user message via
`ui.RenderUserPrompt`, a non-user message via the Glamour renderer with
raw-text fallback plus error notice. -/
def renderMsgLine (env : Env) (msg : ChatMessage) : String :=
  if msg.isUser then
    env.userLabel ++ " " ++ msg.content ++ "\n\n"
  else
    match env.renderMd msg.content with
    | Except.error e =>
        env.errMark ++ "Failed to render markdown: " ++ e ++ "\n\n" ++
          env.aiLabel ++ "\n\n" ++ msg.content ++ "\n\n"
    | Except.ok formatted => env.aiLabel ++ "\n\n" ++ formatted ++ "\n"

def viewHeader (env : Env) (m : ChatModel) : String :=
  env.styleTitle (" Gemini Chat - " ++ m.currentModel ++ " ") ++ "\n\n"

/-- The message section of `View`: placeholder hints when the history is
empty, otherwise the window of most recent messages (Go `int` arithmetic,
division truncating toward zero). -/
def viewBody (env : Env) (m : ChatModel) : String :=
  if m.messages.length = 0 then
    env.hintStart ++ "\n" ++ env.hintHelp ++ "\n\n"
  else
    let availableHeight : Int := m.height - 7
    let startIdx : Int :=
      if (m.messages.length : Int) > Int.tdiv availableHeight 2 then
        (m.messages.length : Int) - Int.tdiv availableHeight 2
      else 0
    ((m.messages.drop startIdx.toNat).map (renderMsgLine env)).foldl
      (fun a b => a ++ b) ""

def viewErr (env : Env) (m : ChatModel) : String :=
  match m.err with
  | some e => env.errMark ++ e ++ "\n\n"
  | none => ""

def viewFooter (env : Env) : String :=
  env.inputView ++ "\n" ++ env.hintQuit ++ "\n"

def view (env : Env) (m : ChatModel) : String :=
  viewHeader env m ++ viewBody env m ++ viewErr env m ++ viewFooter env

/-! ### Top-level command dispatch and exit code (main.go, cmd/generate.go) -/

/-- `ui.ErrorPrefix` / `ui.SuccessPrefix` without the external ANSI coloring
wrappers. -/
def errMarkPlain : String := "✗ "

def okMarkPlain : String := "✓ "

/-- `getApiKey` (cmd/root.go): flag value, else environment variable, else a
`ConfigError`. -/
def getApiKey (apiKeyFlag envKey : String) : Except String String :=
  let key := apiKeyFlag
  if key = "" then
    let key := envKey
    if key = "" then
      Except.error
        "no API key provided. Use --api-key flag or set GEMINI_API_KEY environment variable"
    else Except.ok key
  else Except.ok key

/-- The flag values the `generate` command reads. -/
structure GenCfg where
  listModelsGen : Bool
  prompt : String
  apiKeyFlag : String
  envKey : String
  streamFlag : Bool
  outputFile : String
deriving DecidableEq

/-- Canned outcomes of the external collaborators `generateCmd.Run` calls:
the delegated models command's output, client construction, the Glamour
renders, the generation calls, and the file write. -/
structure GenExt where
  modelsOutput : List String
  clientInit : Except String Unit
  promptMd : Except String String
  streamResult : Except String Unit
  genResult : Except String String
  resultMd : Except String String
  writeOut : Except String Unit

/-- `generateCmd.Run` (cmd/generate.go, lines 26-110): the sequence of lines
printed.  Every failure path prints a prefixed message and returns normally -
the handler has no error return value (`Run`, not `RunE`). -/
def generateRun (ext : GenExt) (cfg : GenCfg) : List String :=
  if cfg.listModelsGen then ext.modelsOutput
  else if cfg.prompt = "" then
    [errMarkPlain ++ "Prompt is required. Use --prompt or -p flag."]
  else
    match getApiKey cfg.apiKeyFlag cfg.envKey with
    | Except.error e => [errMarkPlain ++ e]
    | Except.ok _ =>
        match ext.clientInit with
        | Except.error e => [errMarkPlain ++ "Failed to initialize Gemini client: " ++ e]
        | Except.ok _ =>
            let headerLines :=
              match ext.promptMd with
              | Except.error e =>
                  [errMarkPlain ++ "Failed to render markdown: " ++ e,
                    "Prompt: " ++ cfg.prompt ++ "\n\nResponse:"]
              | Except.ok s => [s]
            if cfg.streamFlag then
              match ext.streamResult with
              | Except.error e =>
                  headerLines ++ ["\n" ++ errMarkPlain ++ "Error generating response: " ++ e]
              | Except.ok _ => headerLines ++ [""]
            else
              match ext.genResult with
              | Except.error e =>
                  headerLines ++ [errMarkPlain ++ "Error generating response: " ++ e]
              | Except.ok result =>
                  let resLines :=
                    match ext.resultMd with
                    | Except.error e =>
                        [errMarkPlain ++ "Failed to render markdown: " ++ e, result]
                    | Except.ok formatted => [formatted]
                  let afterGen := headerLines ++ resLines
                  if cfg.outputFile = "" then afterGen
                  else
                    match ext.writeOut with
                    | Except.error e =>
                        afterGen ++ [errMarkPlain ++ "Error saving to file: " ++ e]
                    | Except.ok _ =>
                        afterGen ++ [okMarkPlain ++ "Response saved to " ++ cfg.outputFile]

/-- `rootCmd.Execute()` as `main` observes it for a `generate` invocation:
cobra's own failures (unknown command/flag) propagate; once flag parsing
succeeds the `Run` handler is called and - having no error return - the
execution reports success no matter what the handler printed. -/
def cliExecute (parsed : Except String GenCfg) (ext : GenExt) : Except String Unit :=
  match parsed with
  | Except.error e => Except.error e
  | Except.ok cfg =>
      let _ := generateRun ext cfg
      Except.ok ()

/-- `main` (main.go): exit 1 when `cmd.Execute()` returns an error, else
fall off the end of `main` (exit 0). -/
def mainExitCode (r : Except String Unit) : Nat :=
  match r with
  | Except.ok _ => 0
  | Except.error _ => 1

/-- The flattened contents of the grouped structure, as (base id, display
name) pairs, for stating that no entry is lost or duplicated. -/
def modelPairs (g : List (String × List String)) : List (String × String) :=
  (g.map (fun p => p.2.map (fun n => (p.1, n)))).flatten

/-! ### Helper lemmas -/

theorem update_enter_nonempty (m : ChatModel) (h : ¬ m.input = "") :
    update m Msg.keyEnter =
      ({ m with messages := m.messages ++ [⟨m.input, true⟩], input := "" },
        some (dispatchLine m.input
          { m with messages := m.messages ++ [⟨m.input, true⟩], input := "" })) := by
  simp [update, h]

theorem stepInput_of_task (m m1 : ChatModel) (c : ClientState) (line : String)
    (f : ClientState → ClientState × Msg)
    (hu : update { m with input := line } Msg.keyEnter = (m1, some (Cmd.task f))) :
    stepInput m c line = ((update m1 (f c).2).1, (f c).1, false) := by
  simp [stepInput, hu]

theorem stepInput_of_quit (m m1 : ChatModel) (c : ClientState) (line : String)
    (hu : update { m with input := line } Msg.keyEnter = (m1, some Cmd.quit)) :
    stepInput m c line = (m1, c, true) := by
  simp [stepInput, hu]

/-! ### Claim theorems -/

/-- C1: for every sequence of fragments fed to `markdownStreamWriter.Write`,
each call appends the fragment verbatim to the internal buffer, and running
the writer over any fragment sequence leaves the buffer equal to the exact
concatenation of the fragments in arrival order (so the final buffer is the
complete response). -/
theorem stream_buffer_concat :
    (∀ render buffer p, (mswWrite render buffer p).buffer = buffer ++ p) ∧
    (∀ render fs, writerRun render fs = String.join fs) := by
  constructor
  · intro render buffer p; rfl
  · intro render fs
    have key : ∀ (fs : List String) (b : String),
        fs.foldl (fun b p => (mswWrite render b p).buffer) b = b ++ String.join fs := by
      intro fs
      induction fs with
      | nil => intro b; simp [String.join]
      | cons p fs ih =>
          intro b
          simp only [List.foldl_cons]
          have hb : (mswWrite render b p).buffer = b ++ p := rfl
          rw [hb, ih (b ++ p), string_join_cons, String.append_assoc]
    have := key fs ""
    simpa [writerRun] using this

/-- C10: the inline text-extraction loop in the chat message handler computes
exactly the same string as `responseToString`: the concatenation, in order,
of all text parts across all candidates with non-nil content, skipping
non-text parts; with no candidates it yields the empty string. -/
theorem chat_extract_eq_responseToString :
    (∀ resp, chatRespText resp = responseToString resp) ∧
    responseToString ⟨[]⟩ = "" :=
  ⟨fun _ => rfl, rfl⟩

/-- C6: submitting an empty input line leaves the entire session state
unchanged and dispatches no command (`Update` returns the model as-is with a
nil command). -/
theorem empty_line_noop (m : ChatModel) (h : m.input = "") :
    update m Msg.keyEnter = (m, none) := by
  simp [update, h]

def chat0 : ChatModel :=
  { messages := [], input := "", err := none, width := 80, height := 24,
    currentModel := "gemini-1.5-pro-latest", chatSession := 0 }

/-- Witness for C6 at a concrete session state. -/
theorem empty_line_noop_check : update chat0 Msg.keyEnter = (chat0, none) :=
  empty_line_noop chat0 rfl

/-- C4: a failure reported by an API-client task arrives as an `errorMsg`;
processing it stores the error as the session-level error value, leaves the
history untouched, returns a non-quit command (the session continues, so the
user may immediately submit another line), and the view displays the error
as a single prefixed line. -/
theorem client_error_nonfatal_displayed (env : Env) (m : ChatModel) (e : String) :
    (update m (Msg.errorMsg e)).1 = { m with err := some e } ∧
    (update m (Msg.errorMsg e)).1.messages = m.messages ∧
    (update m (Msg.errorMsg e)).2 = some Cmd.external ∧
    ∃ pre, view env (update m (Msg.errorMsg e)).1 =
      pre ++ (env.errMark ++ e ++ "\n\n") ++ viewFooter env := by
  refine ⟨rfl, rfl, rfl,
    ⟨viewHeader env { m with err := some e } ++ viewBody env { m with err := some e }, ?_⟩⟩
  rfl

/-- C8: when the Markdown renderer fails, the stream writer still reports all
bytes written and returns no error, printing the raw accumulated buffer; and
the chat view shows the raw message text together with a prefixed error
notice.  A rendering failure never propagates as an error value. -/
theorem render_failure_degrades :
    (∀ render buffer p e, render (buffer ++ p) = Except.error e →
        mswWrite render buffer p =
          { buffer := buffer ++ p, printed := clearLineSeq ++ (buffer ++ p),
            n := p.utf8ByteSize, err := none }) ∧
    (∀ env msg e, msg.isUser = false → env.renderMd msg.content = Except.error e →
        renderMsgLine env msg =
          env.errMark ++ "Failed to render markdown: " ++ e ++ "\n\n" ++
            env.aiLabel ++ "\n\n" ++ msg.content ++ "\n\n") := by
  constructor
  · intro render buffer p e h
    simp [mswWrite, h]
  · intro env msg e hu hr
    simp [renderMsgLine, hu, hr]

def envFail : Env :=
  { styleTitle := fun s => s, userLabel := "You:", aiLabel := "Gemini: ",
    renderMd := fun _ => Except.error "boom", errMark := "x ",
    hintStart := "start", hintHelp := "help", hintQuit := "quit-hint",
    inputView := "input" }

/-- Witness for C8: a renderer that always fails, applied to concrete
fragments and a concrete non-user message. -/
theorem render_failure_degrades_check :
    mswWrite (fun _ => Except.error "boom") "ab" "cd" =
      { buffer := "abcd", printed := clearLineSeq ++ "abcd", n := 2, err := none } ∧
    renderMsgLine envFail ⟨"hello", false⟩ =
      "x " ++ "Failed to render markdown: " ++ "boom" ++ "\n\n" ++
        "Gemini: " ++ "\n\n" ++ "hello" ++ "\n\n" := by
  constructor
  · exact (render_failure_degrades.1 (fun _ => Except.error "boom") "ab" "cd" "boom"
      rfl).trans (by decide)
  · exact (render_failure_degrades.2 envFail ⟨"hello", false⟩ "boom" rfl rfl).trans
      (by decide)

theorem update_response_or_error_messages (m1 : ChatModel) (msg : Msg)
    (hm : (∃ s, msg = Msg.response s) ∨ (∃ e, msg = Msg.errorMsg e)) :
    ∃ tail, (update m1 msg).1.messages = m1.messages ++ tail ∧
      List.Forall (fun x => x.isUser = false) tail := by
  rcases hm with ⟨s, rfl⟩ | ⟨e, rfl⟩
  · exact ⟨[⟨s, false⟩], rfl, rfl⟩
  · exact ⟨[], by simp [update], trivial⟩

/-- C5 (amended): submitting the line `/model ` (empty remainder) echoes the
user's line into history, then `SwitchModel("")` fails with the validation
error without mutating the client; the error becomes the session error, the
current model, session handle and client are unchanged, no response message
is appended, and the session does not quit. -/
theorem model_switch_empty_rejected (m : ChatModel) (c : ClientState) :
    (stepInput m c "/model ").2.1 = c ∧
    (stepInput m c "/model ").1.currentModel = m.currentModel ∧
    (stepInput m c "/model ").1.chatSession = m.chatSession ∧
    (stepInput m c "/model ").1.err = some "model name cannot be empty" ∧
    (stepInput m c "/model ").1.messages = m.messages ++ [⟨"/model ", true⟩] ∧
    (stepInput m c "/model ").2.2 = false := by
  have h : ¬ ({ m with input := "/model " } : ChatModel).input = "" := by
    intro hh
    have hh2 : ("/model " : String) = "" := hh
    exact absurd hh2 (by decide)
  have hu := update_enter_nonempty { m with input := "/model " } h
  have hcond : strHasPfx "/model " "/model " = true := by decide
  have ht : strTrimPfx "/model " "/model " = "" := by decide
  have hd : ∀ m1 : ChatModel, dispatchLine "/model " m1 = Cmd.task (modelSwitchTask "") := by
    intro m1; simp [dispatchLine, hcond, ht]
  rw [hd] at hu
  have hs := stepInput_of_task m _ c "/model " (modelSwitchTask "") hu
  have hf : modelSwitchTask "" c = (c, Msg.errorMsg "model name cannot be empty") := by
    simp [modelSwitchTask, switchModel]
  rw [hf] at hs
  rw [hs]
  refine ⟨rfl, rfl, rfl, rfl, rfl, rfl⟩

def chatPre : ChatModel :=
  { messages := [⟨"hi", true⟩, ⟨"hello!", false⟩], input := "", err := none,
    width := 80, height := 24, currentModel := "gemini-1.5-pro-latest",
    chatSession := 0 }

def client1 : ClientState :=
  { model := "gemini-1.5-pro-latest", nextSid := 1, catalog := Except.ok [],
    reply := Except.ok ⟨[]⟩ }

/-- Counterexample for C5 as frozen: after submitting `/model ` the
conversation history is not unchanged - the user's own line has been echoed
into it (per the synchronous-echo contract), so the history differs from its
prior value. -/
theorem model_switch_empty_echo_appended :
    ((stepInput chatPre client1 "/model ").1.messages = chatPre.messages) = False := by
  have hval : (stepInput chatPre client1 "/model ").1.messages =
      chatPre.messages ++ [⟨"/model ", true⟩] := by decide
  rw [hval]
  exact eq_false (by decide)

/-- C2: concrete evaluation of a successful `/model gemini-2.0-flash` switch
in a fresh exchange.  The shared client's model handle is replaced and a
brand-new session handle is created (the session counter advances), and the
transcript is preserved - but the program's stored model keeps the OLD
`currentModel` and the OLD `chatSession`: the closure's assignments landed on
a discarded copy, so the displayed model name never becomes the new one. -/
theorem model_switch_stale_display :
    (stepInput chatPre client1 "/model gemini-2.0-flash").2.1.model = "gemini-2.0-flash" ∧
    (stepInput chatPre client1 "/model gemini-2.0-flash").2.1.nextSid = 2 ∧
    (stepInput chatPre client1 "/model gemini-2.0-flash").1.currentModel =
      "gemini-1.5-pro-latest" ∧
    (stepInput chatPre client1 "/model gemini-2.0-flash").1.chatSession = 0 ∧
    (stepInput chatPre client1 "/model gemini-2.0-flash").1.messages =
      chatPre.messages ++ [⟨"/model gemini-2.0-flash", true⟩,
        ⟨"Switched to model: gemini-2.0-flash", false⟩] := by
  decide

/-- C7: every non-empty submitted line is echoed to history as a user message
synchronously by `Update` (before the command is dispatched), and after the
dispatched operation settles - response, error, or quit - the history is the
old history, then the user echo, then only non-user entries.  The echo is
therefore always ordered before the corresponding response or error. -/
theorem user_echo_ordered (m : ChatModel) (c : ClientState) (line : String)
    (h : ¬ line = "") :
    (update { m with input := line } Msg.keyEnter).1.messages =
      m.messages ++ [⟨line, true⟩] ∧
    ∃ tail, (stepInput m c line).1.messages = m.messages ++ ⟨line, true⟩ :: tail ∧
      List.Forall (fun x : ChatMessage => x.isUser = false) tail := by
  have h' : ¬ ({ m with input := line } : ChatModel).input = "" := h
  have hu := update_enter_nonempty { m with input := line } h'
  refine ⟨by rw [hu], ?_⟩
  set m1 : ChatModel :=
    { m with messages := m.messages ++ [⟨line, true⟩], input := "" } with hm1
  have hm1msgs : m1.messages = m.messages ++ [⟨line, true⟩] := rfl
  have settle : ∀ f : ClientState → ClientState × Msg,
      update { m with input := line } Msg.keyEnter = (m1, some (Cmd.task f)) →
      ((∃ s, (f c).2 = Msg.response s) ∨ (∃ e, (f c).2 = Msg.errorMsg e)) →
      ∃ tail, (stepInput m c line).1.messages = m.messages ++ ⟨line, true⟩ :: tail ∧
        List.Forall (fun x : ChatMessage => x.isUser = false) tail := by
    intro f huf hkind
    obtain ⟨tail, htail, hforall⟩ := update_response_or_error_messages m1 (f c).2 hkind
    refine ⟨tail, ?_, hforall⟩
    rw [stepInput_of_task m m1 c line f huf]
    simp only [htail, hm1msgs, List.append_assoc, List.singleton_append]
  by_cases h1 : strHasPfx line "/model " = true
  · have hd : dispatchLine line m1 = Cmd.task (modelSwitchTask (strTrimPfx line "/model ")) := by
      simp [dispatchLine, h1]
    rw [hd] at hu
    refine settle _ hu ?_
    by_cases hnm : strTrimPfx line "/model " = ""
    · exact Or.inr ⟨"model name cannot be empty",
        by simp [modelSwitchTask, switchModel, hnm]⟩
    · exact Or.inl ⟨"Switched to model: " ++ strTrimPfx line "/model ",
        by simp [modelSwitchTask, switchModel, hnm]⟩
  · by_cases h2 : line = "/models" ∨ line = "/list-models"
    · have hd : dispatchLine line m1 = Cmd.task (modelsTask m1) := by
        rcases h2 with h2 | h2
        · subst h2
          have hc1 : strHasPfx "/models" "/model " = false := by decide
          simp [dispatchLine, hc1]
        · subst h2
          have hc1 : strHasPfx "/list-models" "/model " = false := by decide
          simp [dispatchLine, hc1]
      rw [hd] at hu
      refine settle _ hu ?_
      cases hc : c.catalog with
      | error e => exact Or.inr ⟨e, by simp [modelsTask, hc]⟩
      | ok models => exact Or.inl ⟨buildModelsMarkdown m1.currentModel models,
          by simp [modelsTask, hc]⟩
    · by_cases h3 : line = "/help"
      · have hd : dispatchLine line m1 = Cmd.task helpTask := by
          subst h3
          have hc1 : strHasPfx "/help" "/model " = false := by decide
          simp [dispatchLine, hc1]
        rw [hd] at hu
        exact settle _ hu (Or.inl ⟨helpText, rfl⟩)
      · by_cases h4 : line = "/quit"
        · have hd : dispatchLine line m1 = Cmd.quit := by
            subst h4
            have hc1 : strHasPfx "/quit" "/model " = false := by decide
            simp [dispatchLine, hc1]
          rw [hd] at hu
          exact ⟨[], by rw [stepInput_of_quit m m1 c line hu], trivial⟩
        · have hd : dispatchLine line m1 = Cmd.task (sendMessageTask line) := by
            simp [dispatchLine, h1, h2, h3, h4]
          rw [hd] at hu
          refine settle _ hu ?_
          cases hr : c.reply with
          | error e => exact Or.inr ⟨e, by simp [sendMessageTask, hr]⟩
          | ok resp => exact Or.inl ⟨chatRespText resp, by simp [sendMessageTask, hr]⟩

/-- Witness for C7 at a concrete state and the concrete line `hello`. -/
theorem user_echo_ordered_check :
    (update { chatPre with input := "hello" } Msg.keyEnter).1.messages =
      chatPre.messages ++ [⟨"hello", true⟩] :=
  (user_echo_ordered chatPre client1 "hello" (by decide)).1

def genCfgNoKey : GenCfg :=
  { listModelsGen := false, prompt := "hi", apiKeyFlag := "", envKey := "",
    streamFlag := false, outputFile := "" }

def genExt0 : GenExt :=
  { modelsOutput := [], clientInit := Except.ok (), promptMd := Except.ok "P",
    streamResult := Except.ok (), genResult := Except.ok "R",
    resultMd := Except.ok "F", writeOut := Except.ok () }

/-- C9 (amended): the process exits non-zero exactly when the command-line
front end itself fails (cobra returns an error from `Execute`, e.g. an
unknown command or flag); failures handled inside a command's `Run` handler -
missing API key, failed client initialization, failed generation - print a
prefixed error message and the handler returns normally, so the process
exits zero.  On success it also exits zero. -/
theorem exit_code_policy :
    (∀ ext cfg, mainExitCode (cliExecute (Except.ok cfg) ext) = 0) ∧
    (∀ ext e, mainExitCode (cliExecute (Except.error e) ext) = 1) ∧
    generateRun genExt0 genCfgNoKey =
      [errMarkPlain ++
        "no API key provided. Use --api-key flag or set GEMINI_API_KEY environment variable"] :=
  ⟨fun _ _ => rfl, fun _ _ => rfl, by decide⟩

/-- Counterexample for C9 as frozen: a `generate` invocation that fails for a
missing API key (its whole output is the prefixed no-API-key error) still
makes `Execute` return success, so the process exits 0, not non-zero. -/
theorem exit_zero_on_missing_key :
    mainExitCode (cliExecute (Except.ok genCfgNoKey) genExt0) = 0 ∧
    generateRun genExt0 genCfgNoKey =
      [errMarkPlain ++
        "no API key provided. Use --api-key flag or set GEMINI_API_KEY environment variable"] :=
  ⟨rfl, by decide⟩

theorem flatten_map_perm_congr {α β : Type} (K : List α) (f g : α → List β)
    (h : ∀ b ∈ K, (f b).Perm (g b)) :
    ((K.map f).flatten).Perm ((K.map g).flatten) := by
  induction K with
  | nil => simp
  | cons k K ih =>
      simp only [List.map_cons, List.flatten_cons]
      exact (h k (List.mem_cons_self k K)).append
        (ih fun b hb => h b (List.mem_cons_of_mem _ hb))

theorem flatten_map_extract {α β : Type} [DecidableEq α] (K : List α) (b0 : α) (x : β)
    (f g : α → List β) (hnd : K.Nodup) (hb : b0 ∈ K)
    (hg : g b0 = x :: f b0) (hfg : ∀ b, ¬ b = b0 → g b = f b) :
    ((K.map g).flatten).Perm (x :: (K.map f).flatten) := by
  induction K with
  | nil => cases hb
  | cons k K ih =>
      rcases List.nodup_cons.mp hnd with ⟨hk, hnd2⟩
      by_cases hkb : k = b0
      · subst hkb
        have hmap : K.map g = K.map f :=
          List.map_congr_left fun b hbK => hfg b (fun he => hk (he ▸ hbK))
        simp only [List.map_cons, List.flatten_cons, hg, hmap, List.cons_append]
        exact List.Perm.refl _
      · have hbK : b0 ∈ K := by
          rcases List.mem_cons.mp hb with h | h
          · exact absurd h.symm hkb
          · exact h
        have hrec := ih hnd2 hbK
        simp only [List.map_cons, List.flatten_cons, hfg k hkb]
        exact (List.Perm.append_left (f k) hrec).trans List.perm_middle

theorem groupNames_cons_self (m : ModelInfo) (ms : List ModelInfo) :
    groupNames (m :: ms) m.baseModelID =
      displayNameOf m.name :: groupNames ms m.baseModelID := by
  simp [groupNames, List.filter_cons]

theorem groupNames_cons_ne (m : ModelInfo) (ms : List ModelInfo) (b : String)
    (h : ¬ b = m.baseModelID) :
    groupNames (m :: ms) b = groupNames ms b := by
  have hbeq : (m.baseModelID == b) = false := by
    simp only [beq_eq_false_iff_ne, ne_eq]
    exact fun he => h he.symm
  simp [groupNames, List.filter_cons, hbeq]

theorem groupNames_partition (ms : List ModelInfo) :
    ∀ K : List String, K.Nodup → (∀ m ∈ ms, m.baseModelID ∈ K) →
      ((K.map (fun b => (groupNames ms b).map (fun n => (b, n)))).flatten).Perm
        (ms.map (fun m => (m.baseModelID, displayNameOf m.name))) := by
  induction ms with
  | nil =>
      intro K _ _
      simp [groupNames, List.perm_nil]
  | cons m ms ih =>
      intro K hnd hK
      have hb0 : m.baseModelID ∈ K := hK m (List.mem_cons_self m ms)
      have hg : (fun b => (groupNames (m :: ms) b).map (fun n => (b, n))) m.baseModelID
          = (m.baseModelID, displayNameOf m.name) ::
              (fun b => (groupNames ms b).map (fun n => (b, n))) m.baseModelID := by
        simp [groupNames_cons_self]
      have hfg : ∀ b, ¬ b = m.baseModelID →
          (fun b => (groupNames (m :: ms) b).map (fun n => (b, n))) b
            = (fun b => (groupNames ms b).map (fun n => (b, n))) b := by
        intro b hbne
        simp [groupNames_cons_ne m ms b hbne]
      have hstep := flatten_map_extract K m.baseModelID
        (m.baseModelID, displayNameOf m.name) _ _ hnd hb0 hg hfg
      have hrec := ih K hnd (fun m' hm' => hK m' (List.mem_cons_of_mem _ hm'))
      simpa using hstep.trans (hrec.cons _)

theorem groupModels_keys (ms : List ModelInfo) :
    (groupModels ms).map Prod.fst =
      sortStrings ((ms.map (fun m => m.baseModelID)).dedup) := by
  simp only [groupModels, List.map_map]
  have h : List.map (Prod.fst ∘ fun b => (b, sortStrings (groupNames ms b)))
        (sortStrings ((ms.map (fun m => m.baseModelID)).dedup))
      = List.map (fun b => b)
        (sortStrings ((ms.map (fun m => m.baseModelID)).dedup)) :=
    List.map_congr_left fun b _ => rfl
  rw [h]
  simp

/-- C3: for any input catalog, the grouped-and-sorted structure of the
list-models operation has its group keys (base model IDs) in strictly
ascending lexicographic order, the entries inside each group in ascending
lexicographic order by display name (the last `/`-separated segment of the
full name), and its flattened contents are a permutation of the input's
(base id, display name) pairs - every input entry appears exactly once. -/
theorem models_grouping_sorted_complete (ms : List ModelInfo) :
    List.Chain' (· < ·) ((groupModels ms).map Prod.fst) ∧
    List.Forall (fun g : String × List String => List.Chain' (· ≤ ·) g.2)
      (groupModels ms) ∧
    (modelPairs (groupModels ms)).Perm
      (ms.map (fun m => (m.baseModelID, displayNameOf m.name))) := by
  refine ⟨?_, ?_, ?_⟩
  · rw [groupModels_keys]
    have hs : List.Pairwise (· ≤ ·)
        (sortStrings ((ms.map (fun m => m.baseModelID)).dedup)) :=
      List.sorted_insertionSort _ _
    have hn : (sortStrings ((ms.map (fun m => m.baseModelID)).dedup)).Nodup :=
      ((List.perm_insertionSort _ _).symm).nodup (List.nodup_dedup _)
    exact ((hs.and hn).imp (fun hab => lt_of_le_of_ne hab.1 hab.2)).chain'
  · rw [List.forall_iff_forall_mem]
    intro g hg
    rcases List.mem_map.mp hg with ⟨b, _, rfl⟩
    exact (List.sorted_insertionSort _ _).chain'
  · have h1 : modelPairs (groupModels ms) =
        ((sortStrings ((ms.map (fun m => m.baseModelID)).dedup)).map
          (fun b => (sortStrings (groupNames ms b)).map (fun n => (b, n)))).flatten := by
      simp only [modelPairs, groupModels, List.map_map]
      congr 1
    rw [h1]
    have h2 := flatten_map_perm_congr
      (sortStrings ((ms.map (fun m => m.baseModelID)).dedup))
      (fun b => (sortStrings (groupNames ms b)).map (fun n => (b, n)))
      (fun b => (groupNames ms b).map (fun n => (b, n)))
      (fun b _ => (List.perm_insertionSort _ _).map _)
    refine h2.trans ?_
    refine groupNames_partition ms _
      (((List.perm_insertionSort _ _).symm).nodup (List.nodup_dedup _)) ?_
    intro m hm
    exact (List.perm_insertionSort _ _).mem_iff.mpr
      (List.mem_dedup.mpr (List.mem_map_of_mem _ hm))

end Gemi
